import Mathlib

set_option linter.unusedSectionVars false

/-!
Shallow embedding of the residential-energy simulation
(`src/house.py`, `src/person.py`, `src/world.py`, `src/interface.py`).

Python floats are embedded as exact rationals (`ℚ`); the trigonometric
weather term is embedded over `ℝ`.  Mutable objects become immutable
records and methods become state-passing functions.  Agent methods that
a claim's property cannot observe (light switching inside
`move_to_room`, the data collector) are noted at each definition.
-/

namespace RenSim

/-- Embeds `ApplianceType` (src/house.py lines 12-23, identical in
src/enums.py). -/
inductive ApplianceType where
  | refrigerator
  | stove
  | washing_machine
  | dishwasher
  | tv
  | computer
  | lights
  | heater
  | air_conditioner
  | water_heater
  | mobile_charger
deriving DecidableEq, Repr

/-- Embeds `RoomType` (src/house.py lines 5-10). -/
inductive RoomType where
  | kitchen
  | living_room
  | bedroom
  | bathroom
  | hallway
deriving DecidableEq, Repr

/-- Embeds `Appliance.POWER_CONSUMPTION` (src/house.py lines 56-68), kW per type. -/
def POWER_CONSUMPTION : ApplianceType → ℚ
  | .refrigerator => 0.15
  | .stove => 2.5
  | .washing_machine => 1.5
  | .dishwasher => 1.8
  | .tv => 0.15
  | .computer => 0.2
  | .lights => 0.06
  | .heater => 2.0
  | .air_conditioner => 2.5
  | .water_heater => 3.0
  | .mobile_charger => 0.01

/-- Embeds the mutable fields of `Appliance` (src/house.py lines 70-77).
The `room` back-reference is not part of the appliance's own state. -/
structure Appliance where
  appliance_type : ApplianceType
  is_on : Bool
  power_consumption : ℚ
  hours_used : ℚ
  total_consumption : ℚ
deriving DecidableEq, Repr

/-- Embeds `Appliance.__init__` (src/house.py lines 70-83): `is_on`
starts `False`, then the refrigerator / water-heater branch sets it
`True`; `power_consumption` is looked up in the table; the usage
counters start at 0. -/
def initAppliance (t : ApplianceType) : Appliance :=
  { appliance_type := t
    is_on := t = ApplianceType.refrigerator ∨ t = ApplianceType.water_heater
    power_consumption := POWER_CONSUMPTION t
    hours_used := 0
    total_consumption := 0 }

/-- Embeds `Appliance.turn_on` (src/house.py lines 85-87). -/
def turn_on (a : Appliance) : Appliance :=
  { a with is_on := true }

/-- Embeds `Appliance.turn_off` (src/house.py lines 89-93): a no-op for
refrigerator and water heater. -/
def turn_off (a : Appliance) : Appliance :=
  if a.appliance_type = ApplianceType.refrigerator ∨
     a.appliance_type = ApplianceType.water_heater then a
  else { a with is_on := false }

/-- Embeds `Appliance.step` (src/house.py lines 95-102).  Returns the
updated appliance together with the amount added to the model's
`total_energy_consumed` (0 when the appliance is off). -/
def applianceStep (a : Appliance) : Appliance × ℚ :=
  if a.is_on then
    ({ a with total_consumption := a.total_consumption + a.power_consumption
              hours_used := a.hours_used + 1 }, a.power_consumption)
  else (a, 0)

/-- The operations of the source that mutate a single appliance's state:
`turn_on`, `turn_off` (the only assignments to `is_on` outside
`__init__` anywhere in src/) and `Appliance.step`. -/
inductive AppOp where
  | switchOn
  | switchOff
  | tick
deriving DecidableEq, Repr

/-- Applies one appliance operation. -/
def applyOp (a : Appliance) : AppOp → Appliance
  | .switchOn => turn_on a
  | .switchOff => turn_off a
  | .tick => (applianceStep a).1

/-- Applies a sequence of appliance operations in order. -/
def applyOps (ops : List AppOp) (a : Appliance) : Appliance :=
  ops.foldl applyOp a

/-- No appliance operation changes the appliance's type. -/
lemma applyOp_type (a : Appliance) (op : AppOp) :
    (applyOp a op).appliance_type = a.appliance_type := by
  cases op <;> simp [applyOp, turn_on, turn_off, applianceStep]
  · split <;> rfl
  · split <;> rfl

/-- No appliance operation changes the appliance's nominal power. -/
lemma applyOp_power (a : Appliance) (op : AppOp) :
    (applyOp a op).power_consumption = a.power_consumption := by
  cases op <;> simp [applyOp, turn_on, turn_off, applianceStep]
  · split <;> rfl
  · split <;> rfl

/-- An always-on appliance (refrigerator or water heater) stays on
across any single operation. -/
lemma applyOp_alwaysOn (a : Appliance) (op : AppOp)
    (ht : a.appliance_type = ApplianceType.refrigerator ∨
          a.appliance_type = ApplianceType.water_heater)
    (hon : a.is_on = true) :
    (applyOp a op).is_on = true := by
  cases op with
  | switchOn => simp [applyOp, turn_on]
  | switchOff => rcases ht with h | h <;> simp [applyOp, turn_off, h, hon]
  | tick => simp [applyOp, applianceStep]; split <;> simp_all

/-- An always-on appliance stays on across any operation sequence. -/
lemma applyOps_alwaysOn (ops : List AppOp) (a : Appliance)
    (ht : a.appliance_type = ApplianceType.refrigerator ∨
          a.appliance_type = ApplianceType.water_heater)
    (hon : a.is_on = true) :
    (applyOps ops a).is_on = true := by
  induction ops generalizing a with
  | nil => exact hon
  | cons op rest ih =>
      have h2 : (applyOp a op).appliance_type = a.appliance_type := applyOp_type a op
      exact ih (applyOp a op) (h2 ▸ ht) (applyOp_alwaysOn a op ht hon)

/-- The accounting equation `total_consumption = hours_used * power_consumption`
is preserved by any single appliance operation. -/
lemma applyOp_accounting (a : Appliance) (op : AppOp)
    (h : a.total_consumption = a.hours_used * a.power_consumption) :
    (applyOp a op).total_consumption =
      (applyOp a op).hours_used * (applyOp a op).power_consumption := by
  cases op with
  | switchOn => simpa [applyOp, turn_on] using h
  | switchOff =>
      simp only [applyOp, turn_off]
      split <;> simpa using h
  | tick =>
      simp only [applyOp, applianceStep]
      split <;> simp <;> [skip; exact h]
      rw [h]; ring

/-- C1: a refrigerator or water-heater appliance has `is_on = true` in
every reachable state: construction (`Appliance.__init__`) initializes
it on, `turn_off` is a no-op for these types, and `turn_on` and
`Appliance.step` never clear `is_on`; these are the only operations of
the source that touch an appliance, so the flag stays true after any
operation sequence. -/
theorem claim1_fridge_water_heater_always_on (ops : List AppOp) (t : ApplianceType)
    (ht : t = ApplianceType.refrigerator ∨ t = ApplianceType.water_heater) :
    (applyOps ops (initAppliance t)).is_on = true := by
  apply applyOps_alwaysOn
  · simpa [initAppliance] using ht
  · rcases ht with h | h <;> simp [initAppliance, h]

/-- C1 witness: the refrigerator is still on after a `turn_off` followed
by a consumption step. -/
theorem claim1_witness :
    (ApplianceType.refrigerator = ApplianceType.refrigerator ∨
     ApplianceType.refrigerator = ApplianceType.water_heater) ∧
    (applyOps [AppOp.switchOff, AppOp.tick]
      (initAppliance ApplianceType.refrigerator)).is_on = true :=
  ⟨Or.inl rfl,
   claim1_fridge_water_heater_always_on [AppOp.switchOff, AppOp.tick]
     ApplianceType.refrigerator (Or.inl rfl)⟩

/-- C9: for every appliance and every operation sequence from
construction, `total_consumption = hours_used * power_consumption`:
both counters start at 0, and the only mutation — `Appliance.step` when
`is_on` — adds `power_consumption` to `total_consumption` and 1.0 to
`hours_used` in the same step. -/
theorem claim9_consumption_accounting (t : ApplianceType) (ops : List AppOp) :
    (initAppliance t).hours_used = 0 ∧
    (initAppliance t).total_consumption = 0 ∧
    (applyOps ops (initAppliance t)).total_consumption =
      (applyOps ops (initAppliance t)).hours_used *
        (applyOps ops (initAppliance t)).power_consumption := by
  refine ⟨rfl, rfl, ?_⟩
  have base : (initAppliance t).total_consumption =
      (initAppliance t).hours_used * (initAppliance t).power_consumption := by
    simp [initAppliance]
  generalize (initAppliance t) = a at base ⊢
  induction ops generalizing a with
  | nil => simpa [applyOps] using base
  | cons op rest ih =>
      have step := applyOp_accounting a op base
      simpa [applyOps] using ih (applyOp a op) step

/-- Embeds the fields of `Room` (src/house.py lines 26-34).  Occupants
are represented by numeric person ids (list membership is all the
source uses).  `has_window` is `Option Bool` because `Room.__init__`
never sets the attribute: `none` models its absence, which
src/person.py line 58 reads through `getattr(room, "has_window", True)`
and src/house.py line 152 reads directly (raising AttributeError). -/
structure Room where
  room_type : RoomType
  temperature : ℚ
  window_area : ℚ
  lights_on : Bool
  occupants : List ℕ
  appliances : List Appliance
  has_window : Option Bool
deriving DecidableEq, Repr

/-- Embeds `Room.__init__` (src/house.py lines 27-34): stores the four
constructor arguments, starts with empty occupant and appliance lists,
and sets no `has_window` attribute. -/
def initRoom (rt : RoomType) (temperature : ℚ) (window_area : ℚ) (lights_on : Bool) : Room :=
  { room_type := rt
    temperature := temperature
    window_area := window_area
    lights_on := lights_on
    occupants := []
    appliances := []
    has_window := none }

/-- The loop test `appliance.appliance_type == ApplianceType.HEATER and appliance.is_on`
of src/house.py line 42. -/
def isHeaterOn (a : Appliance) : Bool :=
  a.appliance_type = ApplianceType.heater ∧ a.is_on

/-- The loop test `appliance.appliance_type == ApplianceType.AIR_CONDITIONER and appliance.is_on`
of src/house.py line 44. -/
def isAcOn (a : Appliance) : Bool :=
  a.appliance_type = ApplianceType.air_conditioner ∧ a.is_on

/-- The appliance loop of `Room.update_temperature` (src/house.py lines
41-45): each heater that is on adds 0.5, each air conditioner that is
on subtracts 0.5. -/
def tempAdjust (apps : List Appliance) (t : ℚ) : ℚ :=
  apps.foldl (fun t a =>
    if isHeaterOn a then t + 0.5
    else if isAcOn a then t - 0.5
    else t) t

/-- Embeds `Room.update_temperature` (src/house.py lines 36-45). -/
def update_temperature (r : Room) (external_temp : ℚ) (house_insulation : ℚ) : Room :=
  let exchange_rate := 1 - house_insulation
  let temp_diff := external_temp - r.temperature
  { r with temperature := tempAdjust r.appliances (r.temperature + temp_diff * exchange_rate) }

/-- Number of heaters that are on in an appliance list. -/
def heatersOn (apps : List Appliance) : ℕ := apps.countP isHeaterOn

/-- Number of air conditioners that are on in an appliance list. -/
def acsOn (apps : List Appliance) : ℕ := apps.countP isAcOn

/-- The appliance loop sums the individual contributions: its result is
the starting value plus half the number of heaters on minus half the
number of air conditioners on. -/
lemma tempAdjust_eq (apps : List Appliance) (t : ℚ) :
    tempAdjust apps t = t + (heatersOn apps : ℚ) * 0.5 - (acsOn apps : ℚ) * 0.5 := by
  induction apps generalizing t with
  | nil => simp [tempAdjust, heatersOn, acsOn]
  | cons a rest ih =>
      have hcons : ∀ s : ℚ, tempAdjust (a :: rest) s =
          tempAdjust rest (if isHeaterOn a then s + 0.5 else if isAcOn a then s - 0.5 else s) := by
        intro s
        simp [tempAdjust]
      by_cases h1 : isHeaterOn a = true
      · have h2 : isAcOn a = false := by
          simp only [isHeaterOn, decide_eq_true_eq] at h1
          simp [isAcOn, h1.1]
        rw [hcons t, h1, if_pos rfl, ih (t + 0.5)]
        simp only [heatersOn, acsOn, List.countP_cons, h1, h2]
        push_cast
        ring
      · have h1f : isHeaterOn a = false := by simpa using h1
        by_cases h2 : isAcOn a = true
        · rw [hcons t, h1f, h2]
          simp only [Bool.false_eq_true, if_false, if_true]
          rw [ih (t - 0.5)]
          simp only [heatersOn, acsOn, List.countP_cons, h1f, h2]
          push_cast
          ring
        · have h2f : isAcOn a = false := by simpa using h2
          rw [hcons t, h1f, h2f]
          simp only [Bool.false_eq_true, if_false]
          rw [ih t]
          simp [heatersOn, acsOn, List.countP_cons, h1f, h2f]

/-- C4: `update_temperature(E, I)` sets the room temperature to
`T + (E - T)*(1 - I)` plus 0.5 per heater that is on minus 0.5 per air
conditioner that is on; since the contributions are summed, any
permutation of the room's appliances (with the same temperature)
produces the same result. -/
theorem claim4_update_temperature (r : Room) (E I : ℚ) :
    ((update_temperature r E I).temperature =
      r.temperature + (E - r.temperature) * (1 - I)
        + (heatersOn r.appliances : ℚ) * 0.5 - (acsOn r.appliances : ℚ) * 0.5) ∧
    (∀ r2 : Room, r2.temperature = r.temperature →
      r2.appliances.Perm r.appliances →
      (update_temperature r2 E I).temperature = (update_temperature r E I).temperature) := by
  constructor
  · simp only [update_temperature, tempAdjust_eq]
  · intro r2 ht hp
    have hh : heatersOn r2.appliances = heatersOn r.appliances := hp.countP_eq _
    have ha : acsOn r2.appliances = acsOn r.appliances := hp.countP_eq _
    simp only [update_temperature, tempAdjust_eq, ht, hh, ha]

/-- A living-room state used to instantiate C4: a heater that is on
followed by a tv. -/
def permRoomA : Room :=
  { initRoom RoomType.living_room 10 0 false with
    appliances := [turn_on (initAppliance ApplianceType.heater),
                   initAppliance ApplianceType.tv] }

/-- The same room with its two appliances listed in the other order. -/
def permRoomB : Room :=
  { initRoom RoomType.living_room 10 0 false with
    appliances := [initAppliance ApplianceType.tv,
                   turn_on (initAppliance ApplianceType.heater)] }

/-- C4 witness: at temperature 10, external 20, insulation 1/2, with one
heater on, both appliance orders give the blended value plus 0.5. -/
theorem claim4_witness :
    permRoomB.temperature = permRoomA.temperature ∧
    permRoomB.appliances.Perm permRoomA.appliances ∧
    (update_temperature permRoomB 20 (1/2)).temperature =
      (update_temperature permRoomA 20 (1/2)).temperature :=
  ⟨rfl, List.Perm.swap _ _ _,
   (claim4_update_temperature permRoomA 20 (1/2)).2 permRoomB rfl (List.Perm.swap _ _ _)⟩

/-- C6: with insulation in [0.1, 1.0] and no heater or air conditioner
on, the updated temperature lies between `min(T, E)` and `max(T, E)`;
with exactly one heater on and no air conditioner on, it equals the
blended value plus exactly 0.5. -/
theorem claim6_blend_bounds :
    (∀ (r : Room) (E I : ℚ), 0.1 ≤ I → I ≤ 1 →
      heatersOn r.appliances = 0 → acsOn r.appliances = 0 →
      min r.temperature E ≤ (update_temperature r E I).temperature ∧
      (update_temperature r E I).temperature ≤ max r.temperature E) ∧
    (∀ (r : Room) (E I : ℚ), 0.1 ≤ I → I ≤ 1 →
      heatersOn r.appliances = 1 → acsOn r.appliances = 0 →
      (update_temperature r E I).temperature =
        (r.temperature + (E - r.temperature) * (1 - I)) + 0.5) := by
  constructor
  · intro r E I hI0 hI1 hh ha
    simp only [update_temperature, tempAdjust_eq, hh, ha, Nat.cast_zero, zero_mul,
      add_zero, sub_zero]
    rcases le_total r.temperature E with h | h
    · rw [min_eq_left h, max_eq_right h]
      constructor <;> nlinarith
    · rw [min_eq_right h, max_eq_left h]
      constructor <;> nlinarith
  · intro r E I hI0 hI1 hh ha
    simp only [update_temperature, tempAdjust_eq, hh, ha, Nat.cast_zero, Nat.cast_one,
      zero_mul, one_mul, sub_zero]

/-- A room with no appliance contributing to temperature. -/
def blendRoomA : Room := initRoom RoomType.bedroom 10 0 false

/-- A room whose only appliance is a heater that is on. -/
def blendRoomB : Room :=
  { initRoom RoomType.bedroom 10 0 false with
    appliances := [turn_on (initAppliance ApplianceType.heater)] }

/-- C6 witness: at temperature 10, external 20, insulation 1/2, the
empty room lands between 10 and 20, and the heater room lands exactly
0.5 above the blend. -/
theorem claim6_witness :
    ((0.1 : ℚ) ≤ 1/2 ∧ (1/2 : ℚ) ≤ 1 ∧ heatersOn blendRoomA.appliances = 0 ∧
      acsOn blendRoomA.appliances = 0 ∧ heatersOn blendRoomB.appliances = 1) ∧
    (min blendRoomA.temperature 20 ≤ (update_temperature blendRoomA 20 (1/2)).temperature ∧
      (update_temperature blendRoomA 20 (1/2)).temperature ≤ max blendRoomA.temperature 20) ∧
    (update_temperature blendRoomB 20 (1/2)).temperature =
      (blendRoomB.temperature + (20 - blendRoomB.temperature) * (1 - 1/2)) + 0.5 :=
  ⟨⟨by norm_num, by norm_num, by decide, by decide, by decide⟩,
   claim6_blend_bounds.1 blendRoomA 20 (1/2) (by norm_num) (by norm_num) (by decide) (by decide),
   claim6_blend_bounds.2 blendRoomB 20 (1/2) (by norm_num) (by norm_num) (by decide) (by decide)⟩

/-- Embeds the fields of `ResidentialEnergyModel` that the scheduler's
agents mutate (src/world.py lines 41-47).  Rooms hold only temperatures
(touched by `House.step`, never by the clock or energy accounting) and
are kept out of this state; persons hold no model-level fields.  The
data collector only reads the model, so it has no state here. -/
structure ModelState where
  appliances : List Appliance
  total_energy_consumed : ℚ
  hour_of_day : ℕ
  current_day : ℕ
  daily_consumption : List ℚ
deriving DecidableEq, Repr

/-- One effect an agent step can have on `ModelState` during
`self.schedule.step()`: a person turning appliance `i` on or off
(`Person.perform_activity`, `Person.respond_to_temperature`,
`Person.move_to_room`), or appliance `i` running `Appliance.step`.
`House.step` and `Room.step` touch none of these fields. -/
inductive Action where
  | turnOnAt (i : ℕ)
  | turnOffAt (i : ℕ)
  | stepAt (i : ℕ)
deriving DecidableEq, Repr

/-- Applies one agent effect to the model state. -/
def execAction (s : ModelState) : Action → ModelState
  | .turnOnAt i =>
      match s.appliances[i]? with
      | some a => { s with appliances := s.appliances.set i (turn_on a) }
      | none => s
  | .turnOffAt i =>
      match s.appliances[i]? with
      | some a => { s with appliances := s.appliances.set i (turn_off a) }
      | none => s
  | .stepAt i =>
      match s.appliances[i]? with
      | some a =>
          { s with appliances := s.appliances.set i (applianceStep a).1
                   total_energy_consumed := s.total_energy_consumed + (applianceStep a).2 }
      | none => s

/-- Embeds `self.schedule.step()` (src/world.py line 109): the random
activation order is abstracted as an arbitrary finite list of agent
effects. -/
def schedStep (acts : List Action) (s : ModelState) : ModelState :=
  acts.foldl execAction s

/-- Embeds the clock update of `ResidentialEnergyModel.step`
(src/world.py lines 112-116): `hour_of_day = (hour_of_day + 1) % 24`,
and on wraparound the day increments and the running total is appended
to `daily_consumption`. -/
def advanceClock (s : ModelState) : ModelState :=
  let h := (s.hour_of_day + 1) % 24
  if h = 0 then
    { s with hour_of_day := h
             current_day := s.current_day + 1
             daily_consumption := s.daily_consumption ++ [s.total_energy_consumed] }
  else { s with hour_of_day := h }

/-- Embeds `ResidentialEnergyModel.step` (src/world.py lines 107-116):
scheduler pass, data collection (stateless here), then the clock
update. -/
def modelStep (acts : List Action) (s : ModelState) : ModelState :=
  advanceClock (schedStep acts s)

/-- Embeds the model's initial energy / clock state (src/world.py lines
41-47) over a given appliance roster, each appliance fresh from
`Appliance.__init__`. -/
def initModel (types : List ApplianceType) : ModelState :=
  { appliances := types.map initAppliance
    total_energy_consumed := 0
    hour_of_day := 0
    current_day := 0
    daily_consumption := [] }

/-- A whole run: one scheduler activation list per step. -/
def runModel (script : List (List Action)) (s : ModelState) : ModelState :=
  script.foldl (fun st acts => modelStep acts st) s

/-- Embeds `ResidentialEnergyModel.run_simulation` (src/world.py lines
118-122): exactly `simulation_days * steps_per_day` calls of `step`,
with `steps_per_day = 24`; `env k` is the scheduler activation list of
step `k`. -/
def run_simulation (env : ℕ → List Action) (simulation_days : ℕ) (s : ModelState) : ModelState :=
  (List.range (simulation_days * 24)).foldl (fun st k => modelStep (env k) st) s

/-- All nominal powers in the source's table are nonnegative. -/
lemma power_nonneg (t : ApplianceType) : 0 ≤ POWER_CONSUMPTION t := by
  cases t <;> norm_num [POWER_CONSUMPTION]

/-- Every appliance in the state has nonnegative nominal power. -/
def PowersNonneg (s : ModelState) : Prop :=
  ∀ a ∈ s.appliances, 0 ≤ a.power_consumption

/-- Agent effects keep nominal powers nonnegative. -/
lemma execAction_powers (s : ModelState) (act : Action) (h : PowersNonneg s) :
    PowersNonneg (execAction s act) := by
  have key : ∀ (b : Appliance) (i : ℕ) (f : Appliance → Appliance),
      s.appliances[i]? = some b →
      (∀ a, (f a).power_consumption = a.power_consumption) →
      ∀ a ∈ s.appliances.set i (f b), 0 ≤ a.power_consumption := by
    intro b i f hg hf a ha
    rcases List.mem_or_eq_of_mem_set ha with hmem | heq
    · exact h a hmem
    · rw [heq, hf b]
      exact h b (List.getElem?_mem hg)
  cases act with
  | turnOnAt i =>
      intro a ha
      rcases hg : s.appliances[i]? with _ | b
      · simp only [execAction, hg] at ha
        exact h a ha
      · simp only [execAction, hg] at ha
        exact key b i turn_on hg (fun a => rfl) a ha
  | turnOffAt i =>
      intro a ha
      rcases hg : s.appliances[i]? with _ | b
      · simp only [execAction, hg] at ha
        exact h a ha
      · simp only [execAction, hg] at ha
        exact key b i turn_off hg (fun a => applyOp_power a AppOp.switchOff) a ha
  | stepAt i =>
      intro a ha
      rcases hg : s.appliances[i]? with _ | b
      · simp only [execAction, hg] at ha
        exact h a ha
      · simp only [execAction, hg] at ha
        exact key b i (fun a => (applianceStep a).1) hg (fun a => applyOp_power a AppOp.tick) a ha

/-- During a scheduler pass, `total_energy_consumed` never decreases:
toggles leave it unchanged and `Appliance.step` adds a nonnegative
amount. -/
lemma execAction_total_mono (s : ModelState) (act : Action) (h : PowersNonneg s) :
    s.total_energy_consumed ≤ (execAction s act).total_energy_consumed := by
  cases act with
  | turnOnAt i =>
      rcases hg : s.appliances[i]? with _ | b <;> simp [execAction, hg]
  | turnOffAt i =>
      rcases hg : s.appliances[i]? with _ | b <;> simp [execAction, hg]
  | stepAt i =>
      rcases hg : s.appliances[i]? with _ | b
      · simp [execAction, hg]
      · have hp : 0 ≤ b.power_consumption := h b (List.getElem?_mem hg)
        have he : 0 ≤ (applianceStep b).2 := by
          simp only [applianceStep]
          split <;> simp [hp]
        simp only [execAction, hg]
        linarith
/-- Agent effects never touch the clock or the daily log. -/
lemma execAction_clock (s : ModelState) (act : Action) :
    (execAction s act).hour_of_day = s.hour_of_day ∧
    (execAction s act).current_day = s.current_day ∧
    (execAction s act).daily_consumption = s.daily_consumption := by
  cases act <;> (rename_i i; rcases hg : s.appliances[i]? with _ | b <;> simp [execAction, hg])
/-- A whole scheduler pass keeps powers nonnegative, never decreases the
total, and never touches the clock or the daily log. -/
lemma schedStep_facts (acts : List Action) (s : ModelState) (h : PowersNonneg s) :
    PowersNonneg (schedStep acts s) ∧
    s.total_energy_consumed ≤ (schedStep acts s).total_energy_consumed ∧
    (schedStep acts s).hour_of_day = s.hour_of_day ∧
    (schedStep acts s).current_day = s.current_day ∧
    (schedStep acts s).daily_consumption = s.daily_consumption := by
  induction acts generalizing s with
  | nil => exact ⟨h, le_refl _, rfl, rfl, rfl⟩
  | cons act rest ih =>
      have h1 := execAction_powers s act h
      obtain ⟨p1, p2, p3, p4, p5⟩ := ih (execAction s act) h1
      have hc := execAction_clock s act
      have hstep : schedStep (act :: rest) s = schedStep rest (execAction s act) := rfl
      refine ⟨p1, ?_, ?_, ?_, ?_⟩
      · exact le_trans (execAction_total_mono s act h) p2
      · rw [hstep, p3, hc.1]
      · rw [hstep, p4, hc.2.1]
      · rw [hstep, p5, hc.2.2]
/-- The clock update never decreases the total and keeps the appliance
roster. -/
lemma advanceClock_facts (s : ModelState) :
    (advanceClock s).total_energy_consumed = s.total_energy_consumed ∧
    (advanceClock s).appliances = s.appliances := by
  simp only [advanceClock]
  split <;> simp
/-- One model step keeps powers nonnegative and never decreases the
total. -/
lemma modelStep_mono (acts : List Action) (s : ModelState) (h : PowersNonneg s) :
    PowersNonneg (modelStep acts s) ∧
    s.total_energy_consumed ≤ (modelStep acts s).total_energy_consumed := by
  obtain ⟨p1, p2, _, _, _⟩ := schedStep_facts acts s h
  obtain ⟨q1, q2⟩ := advanceClock_facts (schedStep acts s)
  constructor
  · intro a ha
    rw [modelStep] at ha
    rw [q2] at ha
    exact p1 a ha
  · rw [modelStep, q1]
    exact p2
/-- A whole run from a power-nonnegative state keeps powers nonnegative
and never decreases the total. -/
lemma runModel_mono (script : List (List Action)) (s : ModelState) (h : PowersNonneg s) :
    PowersNonneg (runModel script s) ∧
    s.total_energy_consumed ≤ (runModel script s).total_energy_consumed := by
  induction script generalizing s with
  | nil => exact ⟨h, le_refl _⟩
  | cons acts rest ih =>
      obtain ⟨p1, p2⟩ := modelStep_mono acts s h
      obtain ⟨q1, q2⟩ := ih (modelStep acts s) p1
      exact ⟨q1, le_trans p2 q2⟩
/-- The initial model has only table powers, hence nonnegative ones. -/
lemma initModel_powers (types : List ApplianceType) : PowersNonneg (initModel types) := by
  intro a ha
  simp only [initModel, List.mem_map] at ha
  obtain ⟨t, _, rfl⟩ := ha
  simpa [initAppliance] using power_nonneg t
/-- C5: `total_energy_consumed` starts at 0 and is monotonically
non-decreasing: at every state reached from construction by model
steps, the value is at least 0 and one further model step (whose
appliance steps add their nonnegative `power_consumption` when on)
never decreases it. -/
theorem claim5_energy_monotone (types : List ApplianceType)
    (script : List (List Action)) (acts : List Action) :
    0 ≤ (runModel script (initModel types)).total_energy_consumed ∧
    (runModel script (initModel types)).total_energy_consumed ≤
      (modelStep acts (runModel script (initModel types))).total_energy_consumed := by
  obtain ⟨hp, hmono⟩ := runModel_mono script (initModel types) (initModel_powers types)
  refine ⟨?_, (modelStep_mono acts _ hp).2⟩
  calc (0 : ℚ) = (initModel types).total_energy_consumed := by simp [initModel]
    _ ≤ _ := hmono

/-- A scheduler pass alone never touches the clock or the daily log. -/
lemma schedStep_clock (acts : List Action) (s : ModelState) :
    (schedStep acts s).hour_of_day = s.hour_of_day ∧
    (schedStep acts s).current_day = s.current_day ∧
    (schedStep acts s).daily_consumption = s.daily_consumption := by
  induction acts generalizing s with
  | nil => exact ⟨rfl, rfl, rfl⟩
  | cons act rest ih =>
      have hstep : schedStep (act :: rest) s = schedStep rest (execAction s act) := rfl
      obtain ⟨p1, p2, p3⟩ := ih (execAction s act)
      obtain ⟨q1, q2, q3⟩ := execAction_clock s act
      exact ⟨by rw [hstep, p1, q1], by rw [hstep, p2, q2], by rw [hstep, p3, q3]⟩
/-- One model step advances the clock: the hour becomes
`(hour + 1) % 24`, and exactly on wraparound the day increments and the
running total (as it stands after the scheduler pass) is appended to
`daily_consumption`. -/
lemma modelStep_clock (acts : List Action) (s : ModelState) :
    (modelStep acts s).hour_of_day = (s.hour_of_day + 1) % 24 ∧
    (modelStep acts s).current_day =
      s.current_day + (if (s.hour_of_day + 1) % 24 = 0 then 1 else 0) ∧
    (modelStep acts s).daily_consumption =
      s.daily_consumption ++
        (if (s.hour_of_day + 1) % 24 = 0 then
          [(schedStep acts s).total_energy_consumed] else []) := by
  obtain ⟨p1, p2, p3⟩ := schedStep_clock acts s
  rw [modelStep, advanceClock]
  rw [p1, p2, p3]
  by_cases h : (s.hour_of_day + 1) % 24 = 0 <;> simp [h]
/-- After `n` model steps from a state whose hour is a valid clock
reading, the hour is `(hour + n) % 24` and the day counter and daily
log have grown by `(hour + n) / 24`. -/
lemma rangeFold_progress (env : ℕ → List Action) (n : ℕ) (s : ModelState)
    (hh : s.hour_of_day < 24) :
    ((List.range n).foldl (fun st k => modelStep (env k) st) s).hour_of_day =
      (s.hour_of_day + n) % 24 ∧
    ((List.range n).foldl (fun st k => modelStep (env k) st) s).current_day =
      s.current_day + (s.hour_of_day + n) / 24 ∧
    ((List.range n).foldl (fun st k => modelStep (env k) st) s).daily_consumption.length =
      s.daily_consumption.length + (s.hour_of_day + n) / 24 := by
  induction n with
  | zero =>
      refine ⟨?_, ?_, ?_⟩ <;> simp <;> omega
  | succ n ih =>
      obtain ⟨p1, p2, p3⟩ := ih
      have hsplit : (List.range (n + 1)).foldl (fun st k => modelStep (env k) st) s =
          modelStep (env n) ((List.range n).foldl (fun st k => modelStep (env k) st) s) := by
        rw [List.range_succ, List.foldl_append, List.foldl_cons, List.foldl_nil]
      obtain ⟨q1, q2, q3⟩ :=
        modelStep_clock (env n) ((List.range n).foldl (fun st k => modelStep (env k) st) s)
      refine ⟨?_, ?_, ?_⟩
      · rw [hsplit, q1, p1]
        omega
      · rw [hsplit, q2, p2, p1]
        split <;> omega
      · rw [hsplit, q3, List.length_append, p3, p1]
        split <;> simp <;> omega
/-- C7: each `ResidentialEnergyModel.step` sets
`hour_of_day := (hour_of_day + 1) % 24`; exactly when the new hour is 0
it increments `current_day` and appends the running
`total_energy_consumed` (as collected after the scheduler pass) to
`daily_consumption`; and `run_simulation` performs exactly
`simulation_days * 24` steps, so from a fresh model it ends at hour 0
with `current_day = simulation_days` and one daily sample per day. -/
theorem claim7_clock_and_run (acts : List Action) (s : ModelState)
    (env : ℕ → List Action) (simulation_days : ℕ) (types : List ApplianceType) :
    (modelStep acts s).hour_of_day = (s.hour_of_day + 1) % 24 ∧
    (modelStep acts s).current_day =
      s.current_day + (if (s.hour_of_day + 1) % 24 = 0 then 1 else 0) ∧
    (modelStep acts s).daily_consumption =
      s.daily_consumption ++
        (if (s.hour_of_day + 1) % 24 = 0 then
          [(schedStep acts s).total_energy_consumed] else []) ∧
    (run_simulation env simulation_days (initModel types)).hour_of_day = 0 ∧
    (run_simulation env simulation_days (initModel types)).current_day = simulation_days ∧
    (run_simulation env simulation_days (initModel types)).daily_consumption.length =
      simulation_days := by
  obtain ⟨p1, p2, p3⟩ := modelStep_clock acts s
  have h0 : (initModel types).hour_of_day < 24 := by simp [initModel]
  obtain ⟨q1, q2, q3⟩ := rangeFold_progress env (simulation_days * 24) (initModel types) h0
  refine ⟨p1, p2, p3, ?_, ?_, ?_⟩
  · rw [run_simulation, q1]
    simp [initModel]
  · rw [run_simulation, q2]
    simp [initModel]
  · rw [run_simulation, q3]
    simp [initModel]

/-- Embeds the daily variation term of
`ResidentialEnergyModel.get_current_weather` (src/world.py line 87):
`5 * np.sin((hour - 6) * np.pi / 12)`. -/
noncomputable def dailyVariation (hour : ℕ) : ℝ :=
  5 * Real.sin (((hour : ℝ) - 6) * Real.pi / 12)
/-- The argument of the sine at hour 18 is exactly pi. -/
lemma dailyVariation_18 : dailyVariation 18 = 0 := by
  rw [dailyVariation]
  push_cast
  rw [show ((18 : ℝ) - 6) * Real.pi / 12 = Real.pi by ring]
  simp [Real.sin_pi]
/-- The argument of the sine at hour 12 is exactly pi over two. -/
lemma dailyVariation_12 : dailyVariation 12 = 5 := by
  rw [dailyVariation]
  push_cast
  rw [show ((12 : ℝ) - 6) * Real.pi / 12 = Real.pi / 2 by ring]
  simp [Real.sin_pi_div_two]
/-- C8 counterexample: the daily variation term is 0 at hour 18 but 5 at
hour 12, so it does not attain its maximum over hours 0-23 at hour 18. -/
theorem claim8_counterexample :
    dailyVariation 18 = 0 ∧ dailyVariation 12 = 5 ∧
    dailyVariation 18 < dailyVariation 12 := by
  refine ⟨dailyVariation_18, dailyVariation_12, ?_⟩
  rw [dailyVariation_18, dailyVariation_12]
  norm_num
/-- C8 (amended): the daily variation term `5*sin((hour - 6)*pi/12)`
attains its maximum over integer hours at hour 12, where it equals 5;
the diurnal cycle it produces peaks at noon, not at hour 18. -/
theorem claim8_peak_at_noon :
    (∀ hour : ℕ, dailyVariation hour ≤ dailyVariation 12) ∧ dailyVariation 12 = 5 := by
  refine ⟨?_, dailyVariation_12⟩
  intro hour
  rw [dailyVariation_12, dailyVariation]
  have hs : Real.sin (((hour : ℝ) - 6) * Real.pi / 12) ≤ 1 := Real.sin_le_one _
  linarith

/-- The numeric value Python gives a `bool` used as a float: `True` is
1.0 and `False` is 0.0. -/
def boolAsFloat (b : Bool) : ℚ := if b then 1 else 0
/-- The `room_configs` list of `House._create_rooms` (src/house.py
lines 270-277): `(room_type, has_window)` pairs. -/
def room_configs : List (RoomType × Bool) :=
  [(RoomType.kitchen, true),
   (RoomType.living_room, true),
   (RoomType.bedroom, true),
   (RoomType.bedroom, true),
   (RoomType.bathroom, false),
   (RoomType.hallway, false)]
/-- Embeds `appliances_by_room` of `House._add_appliances_to_room`
(src/house.py lines 289-314). -/
def appliances_by_room : RoomType → List ApplianceType
  | .kitchen => [.refrigerator, .stove, .dishwasher, .lights]
  | .living_room => [.tv, .lights, .air_conditioner]
  | .bedroom => [.lights, .computer, .mobile_charger, .heater]
  | .bathroom => [.lights, .water_heater]
  | .hallway => [.lights]
/-- Embeds `House._add_appliances_to_room` (src/house.py lines 287-318):
each `Appliance.__init__` appends itself to `room.appliances`. -/
def addAppliancesToRoom (r : Room) : Room :=
  { r with appliances := r.appliances ++ (appliances_by_room r.room_type).map initAppliance }
/-- Embeds `House._create_rooms` (src/house.py lines 268-285).  The
call `Room(self.model.next_id(), self.model, room_type, has_window)`
passes the boolean window flag in the `temperature` positional slot of
`Room.__init__`, leaves `window_area` and `lights_on` at their defaults
(0.0 and False), and never sets a `has_window` attribute; then the
room's appliances are populated. -/
def createRooms : List Room :=
  room_configs.map (fun c => addAppliancesToRoom (initRoom c.1 (boolAsFloat c.2) 0 false))
/-- C10: every room built by `House._create_rooms` starts with
`temperature` equal to 1.0 when its config had a window and 0.0
otherwise (the flag landing in the temperature parameter),
`window_area = 0.0`, and no `has_window` attribute set. -/
theorem claim10_create_rooms :
    createRooms.map Room.temperature = [1, 1, 1, 1, 0, 0] ∧
    createRooms.map Room.window_area = [0, 0, 0, 0, 0, 0] ∧
    createRooms.map Room.has_window = [none, none, none, none, none, none] ∧
    room_configs.map Prod.snd = [true, true, true, true, false, false] := by
  refine ⟨rfl, rfl, rfl, rfl⟩

/-- Embeds `Room.step` (src/house.py lines 47-49): the body is `pass`,
so the room state — occupants and appliances included — is unchanged. -/
def roomStep (r : Room) : Room := r
/-- Modelled from the spec: an appliance carrying the `is_smart` flag of
the spec's data model.  No such flag exists anywhere under src/: no
appliance attribute `is_smart` is ever set; only the
`smart_appliances` policy choice (none | base | all) in
src/interface.py line 105 declares the feature. -/
structure SmartAppliance where
  base : Appliance
  is_smart : Bool
deriving DecidableEq, Repr
/-- Modelled from the spec: the smart-shutoff sweep of `Room.tick` —
"if no occupants present, any appliance flagged smart is
force-turned-off".  This is what src/house.py `Room.step` was to do and
does not. -/
def roomTickSpec (occupants : List ℕ) (apps : List SmartAppliance) : List SmartAppliance :=
  if occupants.isEmpty then
    apps.map (fun a => if a.is_smart then { a with base := turn_off a.base } else a)
  else apps
/-- A room with no occupants whose two appliances are both on; under
policy "all" both would be flagged smart, under "base" only the
lights. -/
def emptySmartRoom : Room :=
  { room_type := RoomType.living_room
    temperature := 20
    window_area := 0
    lights_on := false
    occupants := []
    appliances := [turn_on (initAppliance ApplianceType.lights),
                   turn_on (initAppliance ApplianceType.tv)]
    has_window := none }
/-- C2 (code bug): the per-tick room step of the source is an empty
stub, so in a room with no occupants every appliance that is on stays
on — nothing is turned off — while the spec's smart-shutoff sweep
(modelled from the spec) would turn the smart-flagged lights off and
leave the non-smart tv on. -/
theorem claim2_room_step_stub :
    roomStep emptySmartRoom = emptySmartRoom ∧
    (roomStep emptySmartRoom).appliances.map Appliance.is_on = [true, true] ∧
    (roomTickSpec emptySmartRoom.occupants
      [SmartAppliance.mk (turn_on (initAppliance ApplianceType.lights)) true,
       SmartAppliance.mk (turn_on (initAppliance ApplianceType.tv)) false]).map
        (fun a => a.base.is_on) = [false, true] := by
  refine ⟨rfl, rfl, ?_⟩
  decide

/-- The occupancy-relevant state of a house: which persons each room's
`occupants` list holds and each person's `current_room`.  Rooms and
persons are type parameters with decidable equality (Python object
identity).  Fields of the source that no occupancy property can
observe — `is_home`, light and stove switching — are omitted; they only
read or write appliance state. -/
structure OccState (ρ π : Type) where
  occupants : ρ → List π
  current_room : π → Option ρ

/-- The empty occupancy: every room list empty, every person (as
constructed by `Person.__init__`, src/person.py line 36 and
src/house.py line 112) with `current_room = None`. -/
def occInit (ρ π : Type) : OccState ρ π :=
  { occupants := fun _ => [], current_room := fun _ => none }

section Occupancy

variable {ρ π : Type} [DecidableEq ρ] [DecidableEq π]

/-- Embeds `Person.move_to_room` of src/person.py lines 41-61
(occupancy effects): if `current_room` is set and differs from the
target, `occupants.remove(self)` guarded by `try/except ValueError`
(here `List.erase`, a no-op when absent); then `current_room = room`
and a membership-guarded append (`if self not in room.occupants`).
The light switching of lines 47-51 and 57-61 only calls
`turn_off`/`turn_on` on appliances and cannot change occupancy. -/
def personMoveToRoom (p : π) (r : ρ) (s : OccState ρ π) : OccState ρ π :=
  let s1 : OccState ρ π :=
    match s.current_room p with
    | some r0 =>
        if r0 = r then s
        else { s with occupants := Function.update s.occupants r0 ((s.occupants r0).erase p) }
    | none => s
  { occupants := fun r2 =>
      if r2 = r then
        (if p ∈ s1.occupants r then s1.occupants r else s1.occupants r ++ [p])
      else s1.occupants r2
    current_room := Function.update s1.current_room p (some r) }

/-- Embeds the `"away"` branch of `Person.perform_activity`
(src/person.py lines 71-78): remove from the current room (guarded by
`try/except`), clear `current_room`.  (`is_home = False` is not
occupancy state.) -/
def personAway (p : π) (s : OccState ρ π) : OccState ρ π :=
  match s.current_room p with
  | some r0 =>
      { occupants := Function.update s.occupants r0 ((s.occupants r0).erase p)
        current_room := Function.update s.current_room p none }
  | none => s

/-- Embeds the `"sleeping"` branch of `Person.perform_activity`
(src/person.py lines 66-69): move to the bedroom (when the house has
one) unless already there. -/
def performSleeping (p : π) (bedroom : Option ρ) (s : OccState ρ π) : OccState ρ π :=
  match bedroom with
  | some b => if s.current_room p ≠ some b then personMoveToRoom p b s else s
  | none => s

/-- Embeds the `"morning_routine"` branch (src/person.py lines 80-93):
with probability 0.5 (`visitBathroom`, the oracle for
`random.random() > 0.5`) move to the bathroom; at hours 7-8 move to the
kitchen.  The stove toggle only touches appliance state. -/
def performMorning (p : π) (hour : ℕ) (bathroom kitchen : Option ρ)
    (visitBathroom : Bool) (s : OccState ρ π) : OccState ρ π :=
  let s1 :=
    if visitBathroom then
      match bathroom with
      | some b => personMoveToRoom p b s
      | none => s
    else s
  if 7 ≤ hour ∧ hour ≤ 8 then
    match kitchen with
    | some k => personMoveToRoom p k s1
    | none => s1
  else s1

/-- Embeds the `"lunch"` branch (src/person.py lines 95-107): with
probability 0.6 (`eatIn`, the oracle for `random.random() > 0.4`) use
the kitchen, else no movement.  The stove toggle only touches
appliance state. -/
def performLunch (p : π) (kitchen : Option ρ) (eatIn : Bool) (s : OccState ρ π) : OccState ρ π :=
  if eatIn then
    match kitchen with
    | some k => personMoveToRoom p k s
    | none => s
  else s

/-- Embeds the `"evening_activities"` branch (src/person.py lines
109-134): at hours 19-21 move to the kitchen, else to the living room.
Stove, dishwasher, tv and mobile-charger toggles only touch appliance
state. -/
def performEvening (p : π) (hour : ℕ) (kitchen living : Option ρ)
    (s : OccState ρ π) : OccState ρ π :=
  if 19 ≤ hour ∧ hour ≤ 21 then
    match kitchen with
    | some k => personMoveToRoom p k s
    | none => s
  else
    match living with
    | some l => personMoveToRoom p l s
    | none => s

/-- One observable call on the occupancy state: a direct
`move_to_room`, or one `perform_activity` dispatch of src/person.py
with its room lookups (`House.get_room_by_type`, `None` when the house
has no such room) and random draws supplied as parameters. -/
inductive PersonEvent (ρ π : Type) where
  | moveTo (p : π) (r : ρ)
  | sleeping (p : π) (bedroom : Option ρ)
  | away (p : π)
  | morning (p : π) (hour : ℕ) (bathroom kitchen : Option ρ) (visitBathroom : Bool)
  | lunch (p : π) (kitchen : Option ρ) (eatIn : Bool)
  | evening (p : π) (hour : ℕ) (kitchen living : Option ρ)

/-- Executes one occupancy event. -/
def execEvent (s : OccState ρ π) : PersonEvent ρ π → OccState ρ π
  | .moveTo p r => personMoveToRoom p r s
  | .sleeping p bedroom => performSleeping p bedroom s
  | .away p => personAway p s
  | .morning p hour bathroom kitchen visit => performMorning p hour bathroom kitchen visit s
  | .lunch p kitchen eatIn => performLunch p kitchen eatIn s
  | .evening p hour kitchen living => performEvening p hour kitchen living s

/-- Executes a sequence of occupancy events. -/
def runEvents (evs : List (PersonEvent ρ π)) (s : OccState ρ π) : OccState ρ π :=
  evs.foldl execEvent s

/-- The single-membership condition for one person: with
`current_room = r` the person occurs exactly once in `r`'s occupants
and in no other room's; with no current room, in no room's occupants. -/
def OccInvariantAt (s : OccState ρ π) (q : π) : Prop :=
  match s.current_room q with
  | some r => (s.occupants r).count q = 1 ∧ ∀ r2, r2 ≠ r → (s.occupants r2).count q = 0
  | none => ∀ r2, (s.occupants r2).count q = 0

/-- The single-membership invariant for every person. -/
def OccInvariant (s : OccState ρ π) : Prop :=
  ∀ q : π, OccInvariantAt s q

/-- Unfolds `personMoveToRoom` when the person is in no room: no
removal happens, the person is appended to the target (absent there
under the invariant). -/
lemma personMoveToRoom_eq_none (p : π) (r : ρ) (s : OccState ρ π)
    (hc : s.current_room p = none) :
    personMoveToRoom p r s =
      { occupants := fun r2 =>
          if r2 = r then
            (if p ∈ s.occupants r then s.occupants r else s.occupants r ++ [p])
          else s.occupants r2
        current_room := Function.update s.current_room p (some r) } := by
  simp only [personMoveToRoom, hc]

/-- Unfolds `personMoveToRoom` when the person is already in the target
room: no removal happens. -/
lemma personMoveToRoom_eq_same (p : π) (r : ρ) (s : OccState ρ π)
    (hc : s.current_room p = some r) :
    personMoveToRoom p r s =
      { occupants := fun r2 =>
          if r2 = r then
            (if p ∈ s.occupants r then s.occupants r else s.occupants r ++ [p])
          else s.occupants r2
        current_room := Function.update s.current_room p (some r) } := by
  simp only [personMoveToRoom, hc]
  simp

/-- Unfolds `personMoveToRoom` when the person moves between distinct
rooms: first the erase from the old room, then the guarded append. -/
lemma personMoveToRoom_eq_move (p : π) (r r0 : ρ) (s : OccState ρ π)
    (hc : s.current_room p = some r0) (hne : r0 ≠ r) :
    personMoveToRoom p r s =
      { occupants := fun r2 =>
          if r2 = r then
            (if p ∈ Function.update s.occupants r0 ((s.occupants r0).erase p) r then
              Function.update s.occupants r0 ((s.occupants r0).erase p) r
            else Function.update s.occupants r0 ((s.occupants r0).erase p) r ++ [p])
          else Function.update s.occupants r0 ((s.occupants r0).erase p) r2
        current_room := Function.update s.current_room p (some r) } := by
  simp only [personMoveToRoom, hc, if_neg hne]

/-- A state change that leaves one person's current room and all of
that person's occupancy counts unchanged preserves that person's
single-membership condition. -/
lemma occInvariantAt_transfer (s s2 : OccState ρ π) (q : π)
    (hcur : s2.current_room q = s.current_room q)
    (hcount : ∀ r2, (s2.occupants r2).count q = (s.occupants r2).count q)
    (h : OccInvariantAt s q) : OccInvariantAt s2 q := by
  unfold OccInvariantAt at h ⊢
  rw [hcur]
  rcases hc : s.current_room q with _ | rq
  · rw [hc] at h
    intro r2
    rw [hcount r2]
    exact h r2
  · rw [hc] at h
    exact ⟨by rw [hcount]; exact h.1, fun r2 hne => by rw [hcount]; exact h.2 r2 hne⟩

/-- `Person.move_to_room` of src/person.py preserves the
single-membership invariant. -/
lemma personMoveToRoom_inv (p : π) (r : ρ) (s : OccState ρ π) (h : OccInvariant s) :
    OccInvariant (personMoveToRoom p r s) := by
  intro q
  rcases hc : s.current_room p with _ | r0
  · -- the person was in no room: no removal, plain guarded append
    rw [personMoveToRoom_eq_none p r s hc]
    have hall : ∀ r2, (s.occupants r2).count p = 0 := by
      have hp := h p
      unfold OccInvariantAt at hp
      rw [hc] at hp
      exact hp
    have hnm : p ∉ s.occupants r := by
      rw [← List.count_eq_zero]
      exact hall r
    by_cases hq : q = p
    · subst hq
      unfold OccInvariantAt
      simp only [Function.update_same]
      refine ⟨?_, ?_⟩
      · simp only [if_pos rfl, if_neg hnm, List.count_append]
        simp [hall r, List.count_cons]
      · intro r2 hne
        simp only [if_neg hne]
        exact hall r2
    · refine occInvariantAt_transfer s _ q (Function.update_noteq hq _ _) ?_ (h q)
      intro r2
      by_cases hr2 : r2 = r
      · subst hr2
        simp only [if_pos rfl, hnm, if_neg, List.count_append]
        simp [List.count_cons, hq]
      · simp only [if_neg hr2]
  · by_cases hrr : r0 = r
    · -- already in the target room: the membership guard skips the append
      subst hrr
      rw [personMoveToRoom_eq_same p r0 s hc]
      have hp := h p
      unfold OccInvariantAt at hp
      rw [hc] at hp
      have hmem : p ∈ s.occupants r0 := by
        rw [← List.count_pos_iff]
        omega
      by_cases hq : q = p
      · subst hq
        unfold OccInvariantAt
        simp only [Function.update_same]
        refine ⟨?_, ?_⟩
        · simp only [if_pos rfl, if_pos hmem]
          exact hp.1
        · intro r2 hne
          simp only [if_neg hne]
          exact hp.2 r2 hne
      · refine occInvariantAt_transfer s _ q (Function.update_noteq hq _ _) ?_ (h q)
        intro r2
        by_cases hr2 : r2 = r0
        · subst hr2
          simp [hmem]
        · simp only [if_neg hr2]
    · -- moving between distinct rooms: erase from the old, append to the new
      rw [personMoveToRoom_eq_move p r r0 s hc hrr]
      have hp := h p
      unfold OccInvariantAt at hp
      rw [hc] at hp
      have hgr : Function.update s.occupants r0 ((s.occupants r0).erase p) r = s.occupants r :=
        Function.update_noteq (Ne.symm hrr) _ _
      have hcount0 : (s.occupants r).count p = 0 := hp.2 r (Ne.symm hrr)
      have hnm : p ∉ Function.update s.occupants r0 ((s.occupants r0).erase p) r := by
        rw [hgr, ← List.count_eq_zero]
        exact hcount0
      by_cases hq : q = p
      · subst hq
        unfold OccInvariantAt
        simp only [Function.update_same]
        refine ⟨?_, ?_⟩
        · simp only [if_pos rfl, if_neg hnm, List.count_append]
          rw [hgr]
          simp [hcount0, List.count_cons]
        · intro r2 hne
          simp only [if_neg hne]
          by_cases hr0 : r2 = r0
          · subst hr0
            rw [Function.update_same, List.count_erase_self, hp.1]
          · rw [Function.update_noteq hr0 _ _]
            exact hp.2 r2 hr0
      · refine occInvariantAt_transfer s _ q (Function.update_noteq hq _ _) ?_ (h q)
        intro r2
        have hgq : ∀ r3, (Function.update s.occupants r0 ((s.occupants r0).erase p) r3).count q =
            (s.occupants r3).count q := by
          intro r3
          by_cases hr0 : r3 = r0
          · subst hr0
            rw [Function.update_same, List.count_erase_of_ne hq]
          · rw [Function.update_noteq hr0 _ _]
        by_cases hr2 : r2 = r
        · subst hr2
          have hnm2 : p ∉ Function.update s.occupants r0 ((s.occupants r0).erase p) r2 := hnm
          simp only [if_pos rfl, hnm2, if_neg, List.count_append]
          simp [hgq r2, List.count_cons, hq]
        · simp only [if_neg hr2]
          exact hgq r2

/-- The `"away"` transition preserves the single-membership
invariant. -/
lemma personAway_inv (p : π) (s : OccState ρ π) (h : OccInvariant s) :
    OccInvariant (personAway p s) := by
  intro q
  rcases hc : s.current_room p with _ | r0
  · have hPA : personAway p s = s := by
      simp only [personAway, hc]
    rw [hPA]
    exact h q
  · have hPA : personAway p s =
        { occupants := Function.update s.occupants r0 ((s.occupants r0).erase p)
          current_room := Function.update s.current_room p none } := by
      simp only [personAway, hc]
    rw [hPA]
    have hp := h p
    unfold OccInvariantAt at hp
    rw [hc] at hp
    by_cases hq : q = p
    · subst hq
      unfold OccInvariantAt
      simp only [Function.update_same]
      intro r2
      by_cases hr0 : r2 = r0
      · subst hr0
        rw [Function.update_same, List.count_erase_self, hp.1]
      · rw [Function.update_noteq hr0 _ _]
        exact hp.2 r2 hr0
    · refine occInvariantAt_transfer s _ q (Function.update_noteq hq _ _) ?_ (h q)
      intro r2
      show (Function.update s.occupants r0 ((s.occupants r0).erase p) r2).count q =
        (s.occupants r2).count q
      by_cases hr0 : r2 = r0
      · subst hr0
        rw [Function.update_same, List.count_erase_of_ne hq]
      · rw [Function.update_noteq hr0 _ _]

/-- Every `perform_activity` dispatch preserves the single-membership
invariant: each branch only composes `personMoveToRoom` and
`personAway`. -/
lemma execEvent_inv (s : OccState ρ π) (ev : PersonEvent ρ π) (h : OccInvariant s) :
    OccInvariant (execEvent s ev) := by
  cases ev with
  | moveTo p r => exact personMoveToRoom_inv p r s h
  | sleeping p bedroom =>
      rcases bedroom with _ | b
      · exact h
      · simp only [execEvent, performSleeping]
        split
        · exact personMoveToRoom_inv p b s h
        · exact h
  | away p => exact personAway_inv p s h
  | morning p hour bathroom kitchen visit =>
      simp only [execEvent, performMorning]
      have h1 : OccInvariant
          (if visit then
            (match bathroom with
             | some b => personMoveToRoom p b s
             | none => s)
          else s) := by
        split
        · rcases bathroom with _ | b
          · exact h
          · exact personMoveToRoom_inv p b s h
        · exact h
      split
      · rcases kitchen with _ | k
        · exact h1
        · exact personMoveToRoom_inv p k _ h1
      · exact h1
  | lunch p kitchen eatIn =>
      simp only [execEvent, performLunch]
      split
      · rcases kitchen with _ | k
        · exact h
        · exact personMoveToRoom_inv p k s h
      · exact h
  | evening p hour kitchen living =>
      simp only [execEvent, performEvening]
      split
      · rcases kitchen with _ | k
        · exact h
        · exact personMoveToRoom_inv p k s h
      · rcases living with _ | l
        · exact h
        · exact personMoveToRoom_inv p l s h

/-- Any event sequence from an invariant state stays invariant. -/
lemma runEvents_inv (evs : List (PersonEvent ρ π)) (s : OccState ρ π) (h : OccInvariant s) :
    OccInvariant (runEvents evs s) := by
  induction evs generalizing s with
  | nil => exact h
  | cons ev rest ih => exact ih (execEvent s ev) (execEvent_inv s ev h)

/-- The empty occupancy satisfies the invariant. -/
lemma occInit_inv : OccInvariant (occInit ρ π) := by
  intro q
  unfold OccInvariantAt occInit
  intro r2
  rfl

end Occupancy

/-- Embeds `Person.move_to_room` of src/house.py lines 137-155
(occupancy effects), which differs from src/person.py in two ways: the
`occupants.remove(self)` is unguarded (a `ValueError` — modelled as
`none` — escapes if the person is missing from the list) and the append
is unconditional.  Entering also reads `room.has_window` when
`7 <= hour <= 19` (line 152); `Room.__init__` never sets that
attribute, so the read raises `AttributeError` — modelled as `none`,
after the occupancy mutation has already happened, because nothing
catches it. -/
def houseMoveToRoom {ρ π : Type} [DecidableEq ρ] [DecidableEq π]
    (p : π) (r : ρ) (hour : ℕ) (s : OccState ρ π) : Option (OccState ρ π) :=
  let enter : OccState ρ π → Option (OccState ρ π) := fun s1 =>
    let s2 : OccState ρ π :=
      { occupants := Function.update s1.occupants r (s1.occupants r ++ [p])
        current_room := Function.update s1.current_room p (some r) }
    if hour < 7 ∨ hour > 19 then some s2 else none
  match s.current_room p with
  | some r0 =>
      if r0 = r then enter s
      else if p ∈ s.occupants r0 then
        enter { s with occupants := Function.update s.occupants r0 ((s.occupants r0).erase p) }
      else none
  | none => enter s

/-- C3 counterexample: under src/house.py's `move_to_room`, two
consecutive calls sending a person to the same room (reachable, e.g.,
from the `evening_activities` kitchen branch two hours running) append
the person twice: starting from the empty occupancy, after two calls
`move_to_room(r)` at hour 0 the person's count in `r.occupants` is 2
with `current_room = r`, not the exactly-once membership the claim
states for every sequence of `move_to_room` calls. -/
theorem claim3_counterexample :
    (Option.bind (houseMoveToRoom () () 0 (occInit Unit Unit))
      (houseMoveToRoom () () 0)).map
        (fun s => ((s.occupants ()).count (), s.current_room ())) =
      some (2, some ()) ∧ (2 : ℕ) ≠ 1 := by
  exact ⟨rfl, by decide⟩

/-- C3 (amended): with src/person.py's `move_to_room` (erase guarded by
`try/except`, membership-guarded append), every sequence of
`move_to_room` and `perform_activity` calls starting from construction
keeps the single-membership invariant: each person occurs exactly once
in the occupants of `current_room` when it is set, and in no room's
occupants when it is `None`, with no duplicates anywhere.  (src/house.py's
variant of `move_to_room` violates this, see the counterexample.) -/
theorem claim3_single_membership {ρ π : Type} [DecidableEq ρ] [DecidableEq π]
    (evs : List (PersonEvent ρ π)) :
    OccInvariant (runEvents evs (occInit ρ π)) :=
  runEvents_inv evs (occInit ρ π) occInit_inv

end RenSim
